import Mathlib

/-!
Verification of the Isaac Four Souls session server game core.

This file gives a shallow embedding of the game-core data model and
operations of the repository (board, turn order, game state, state
broadcaster, game coordinator, lobby room) and proves or refutes the
frozen claims about them.

Randomised shuffling is embedded by threading an explicit `shuffle`
oracle (`List LootCard → List LootCard`); where a claim needs the fact
that shuffling permutes the deck, that fact is taken as a hypothesis.
The `HashMap`/`HashSet` containers of the source are embedded as
association lists (preserving insertion behaviour) and as `Finset`s.
Mutation of `&mut self` receivers is embedded as explicit state passing:
a fallible mutating method returns the pair of its `Result` and the
post-state.
-/

/-- Card zone tag, from `src/game/cards_types.rs` (`Zone`). -/
inductive Zone where
  | Hand
  | LootDeck
  | LootDiscard
  | Playing
  | Item
deriving DecidableEq, Repr

/-- Card kind, from `src/game/cards_types.rs` (`CardType`). -/
inductive CardType where
  | Monster
  | Loot
  | Treasure
  | Character
  | BonusSoul
deriving DecidableEq, Repr

/-- A card instance, from `src/game/cards_types.rs` (`Card`). -/
structure Card where
  entity_id : String
  template_id : String
  name : String
  description : String
  zone : Zone
  card_type : CardType
  owner_id : String
  subtype : String
deriving DecidableEq, Repr

/-- A loot card wraps a `Card`, from `src/game/cards_types.rs` (`LootCard`). -/
structure LootCard where
  card : Card
deriving DecidableEq, Repr

instance : Inhabited LootCard :=
  ⟨⟨⟨"", "", "", "", Zone.LootDeck, CardType.Loot, "", ""⟩⟩⟩

/-- The `Deref` impl of `LootCard` lets the source write
`loot_card.template_id` for `loot_card.card.template_id`. -/
def LootCard.template_id (c : LootCard) : String := c.card.template_id

/-- A card template of the catalogue: `{id, name, type, subtype, description, count}`. -/
structure CardTemplate where
  id : String
  name : String
  card_type : String
  subtype : String
  description : String
  count : Nat
deriving DecidableEq, Repr

/-- Modelled from the spec: `create_loot_deck` is called by
`Board::new` but its definition is not under `src/`; per the spec
(section 3), the catalogue "produces `LootCard` instances by expanding
`count` copies of each template; each instance carries a unique
`entity_id`, the template reference, and a `zone` tag". Each copy `k`
of template `t` is given the entity id `t.id ++ "#" ++ toString k`. -/
def create_loot_deck (catalogue : List CardTemplate) : List LootCard :=
  catalogue.flatMap fun t =>
    (List.range t.count).map fun k =>
      ⟨⟨t.id ++ "#" ++ toString k, t.id, t.name, t.description,
        Zone.LootDeck, CardType.Loot, "", t.subtype⟩⟩

/-- The error type, from `src/errors.rs` (`AppError`); only the variants
reachable from the embedded game core are listed. -/
inductive AppError where
  | PlayerNotFound
  | EmptyLootDeck
  | CardNotInHand
  | InvalidPriorityPass
  | NotPlayerTurn
  | ConnectionNotInRoom
  | Internal (message : String)
deriving DecidableEq, Repr

instance {ε α : Type} [DecidableEq ε] [DecidableEq α] :
    DecidableEq (Except ε α) := fun a b =>
  match a, b with
  | .ok x, .ok y => decidable_of_iff (x = y) (by simp)
  | .error x, .error y => decidable_of_iff (x = y) (by simp)
  | .ok _, .error _ => isFalse (by simp)
  | .error _, .ok _ => isFalse (by simp)

/-- Turn phases, from `src/game/game_state.rs` (`TurnPhases`). -/
inductive TurnPhases where
  | UntapStartStep
  | LootStep
  | ActionStep
  | EndStep
  | TurnEnd
deriving DecidableEq, Repr

/-- In-game player record, from `src/game/board.rs` (`Player`). -/
structure Player where
  hand : List LootCard
  max_health : Nat
  current_health : Nat
  loot_play_turn : Bool
  loot_play_char : Bool
deriving DecidableEq, Repr

/-- The board, from `src/game/board.rs` (`Board`). The `HashMap` of
players is embedded as an association list in insertion order. -/
structure Board where
  loot_deck : List LootCard
  loot_discard : List LootCard
  players : List (String × Player)
deriving DecidableEq, Repr

/-- `HashMap::get` on the embedded player map. -/
def Board.getPlayer (b : Board) (player_id : String) : Option Player :=
  (b.players.find? (fun e => e.1 == player_id)).map (·.2)

/-- `HashMap::get_mut` followed by a hand update: replaces the value at
the (first) matching key, leaving the map unchanged when absent. -/
def updateHand (ps : List (String × Player)) (player_id : String)
    (f : List LootCard → List LootCard) : List (String × Player) :=
  match ps with
  | [] => []
  | e :: rest =>
    if e.1 == player_id then (e.1, { e.2 with hand := f e.2.hand }) :: rest
    else e :: updateHand rest player_id f

/-- `Vec::pop`: removes and returns the last element. -/
def popCard (l : List LootCard) : Option (LootCard × List LootCard) :=
  l.getLast?.map fun c => (c, l.dropLast)

/-- `Board::new` (src/game/board.rs): shuffle a fresh catalogue deck,
then deal 3 cards to each player by popping from the deck tail; each
player starts with health 2/2 and both loot-play flags set. Dealing from
a deck too small panics in the source; the panic is embedded as `none`.
The `shuffle` oracle stands for the source's rng shuffle. -/
def dealHand : List LootCard → Nat → Option (List LootCard × List LootCard)
  | deck, 0 => some ([], deck)
  | deck, n + 1 =>
    match popCard deck with
    | none => none
    | some (c, deck1) =>
      match dealHand deck1 n with
      | none => none
      | some (cards, deck2) => some (c :: cards, deck2)

def dealPlayers : List LootCard → List String → Option (List (String × Player) × List LootCard)
  | deck, [] => some ([], deck)
  | deck, pid :: rest =>
    match dealHand deck 3 with
    | none => none
    | some (cards, deck1) =>
      match dealPlayers deck1 rest with
      | none => none
      | some (ps, deck2) => some ((pid, ⟨cards, 2, 2, true, true⟩) :: ps, deck2)

def Board.new (shuffle : List LootCard → List LootCard)
    (catalogue : List CardTemplate) (player_ids : List String) : Option Board :=
  match dealPlayers (shuffle (create_loot_deck catalogue)) player_ids with
  | none => none
  | some (players, deck) => some ⟨deck, [], players⟩

/-- `Board::reshuffle_loot_deck` (src/game/board.rs): fail
`EmptyLootDeck` when deck and discard are both empty; otherwise, when
the discard is non-empty, move it into the deck and shuffle. -/
def Board.reshuffle_loot_deck (shuffle : List LootCard → List LootCard)
    (b : Board) : Except AppError Unit × Board :=
  if b.loot_discard.isEmpty ∧ b.loot_deck.isEmpty then (.error .EmptyLootDeck, b)
  else if b.loot_discard.isEmpty then (.ok (), b)
  else (.ok (), { b with loot_deck := shuffle (b.loot_deck ++ b.loot_discard),
                         loot_discard := [] })

/-- The deck-refill guard of `Board::draw_loot_for_player`: "Check if
deck is empty, reshuffle discard if needed". -/
def Board.refillDeck (shuffle : List LootCard → List LootCard)
    (b : Board) : Except AppError Unit × Board :=
  if b.loot_deck.isEmpty then b.reshuffle_loot_deck shuffle else (.ok (), b)

/-- `Board::draw_loot_for_player` (src/game/board.rs): check the player
exists, reshuffle when the deck is empty, pop one card from the deck
tail, and push it onto the player's hand. -/
def Board.draw_loot_for_player (shuffle : List LootCard → List LootCard)
    (b : Board) (player_id : String) : Except AppError LootCard × Board :=
  if (b.getPlayer player_id).isNone then (.error .PlayerNotFound, b)
  else
    match b.refillDeck shuffle with
    | (.error e, b1) => (.error e, b1)
    | (.ok _, b1) =>
      match popCard b1.loot_deck with
      | none => (.error .EmptyLootDeck, b1)
      | some (card, deck1) =>
        (.ok card, { b1 with loot_deck := deck1,
                             players := updateHand b1.players player_id (· ++ [card]) })

/-- `Board::get_player_hand` (src/game/board.rs). -/
def Board.get_player_hand (b : Board) (player_id : String) :
    Except AppError (List LootCard) :=
  match b.getPlayer player_id with
  | none => .error .PlayerNotFound
  | some p => .ok p.hand

/-- `Board::remove_card_from_hand` (src/game/board.rs). The source
clones the player's hand, removes the first card whose `template_id`
matches from the clone, and returns it — the stored hand is never
written back, so the board component of the result is the unchanged
receiver even on success. -/
def Board.remove_card_from_hand (b : Board) (player_id : String)
    (card_id : String) : Except AppError LootCard × Board :=
  match b.getPlayer player_id with
  | none => (.error .PlayerNotFound, b)
  | some p =>
    match p.hand.findIdx? (fun card => card.template_id == card_id) with
    | some pos => (.ok (p.hand.getD pos default), b)
    | none => (.error .CardNotInHand, b)

/-- `Board::discard_loot_card` (src/game/board.rs). -/
def Board.discard_loot_card (b : Board) (card : LootCard) : Board :=
  { b with loot_discard := b.loot_discard ++ [card] }

/-- The multiset of all cards on the board: deck, discard, and every
player's hand. -/
def Board.cards (b : Board) : Multiset LootCard :=
  (↑b.loot_deck : Multiset LootCard) + ↑b.loot_discard
    + (b.players.map fun e => (↑e.2.hand : Multiset LootCard)).sum

/-- Turn order, from `src/game/turn_order.rs` (`TurnOrder`). The
randomised ordering is the `order` list itself (its construction by
`TurnOrder::new` shuffles the player ids). -/
structure TurnOrder where
  order : List String
  active_player_id : String
  turn_counter : Nat
deriving DecidableEq, Repr

/-- `TurnOrder::is_player_turn`. -/
def TurnOrder.is_player_turn (t : TurnOrder) (player_id : String) : Bool :=
  t.active_player_id == player_id

/-- `TurnOrder::advance_turn`: when the active player occurs in `order`,
rotate the active cursor to the next position (wrapping) and increment
the turn counter; otherwise leave the state unchanged. -/
def TurnOrder.advance_turn (t : TurnOrder) : TurnOrder :=
  match t.order.findIdx? (· == t.active_player_id) with
  | some current_index =>
    { t with
      active_player_id := t.order.getD ((current_index + 1) % t.order.length)
        t.active_player_id,
      turn_counter := t.turn_counter + 1 }
  | none => t

/-- Game state, from `src/game/game_state.rs` (`GameState`). The
`HashSet` of passed players is embedded as a `Finset`. -/
structure GameState where
  turn_order : TurnOrder
  current_phase : TurnPhases
  current_priority_player : String
  players_passed_priority : Finset String
  board : Board
  game_running : Bool
  waiting_for_priority : Bool

/-- `GameState::new` (src/game/game_state.rs). -/
def GameState.new (shuffle : List LootCard → List LootCard)
    (catalogue : List CardTemplate) (player_ids : List String)
    (turn_order : TurnOrder) : Option GameState :=
  match Board.new shuffle catalogue player_ids with
  | none => none
  | some board => some
    { current_priority_player := turn_order.active_player_id
      current_phase := TurnPhases.UntapStartStep
      turn_order := turn_order
      board := board
      players_passed_priority := ∅
      game_running := true
      waiting_for_priority := false }

/-- `GameState::can_player_pass_turn`. -/
def GameState.can_player_pass_turn (s : GameState) (player_id : String) : Bool :=
  s.turn_order.is_player_turn player_id

/-- `GameState::can_player_pass_priority`. -/
def GameState.can_player_pass_priority (s : GameState) (player_id : String) : Bool :=
  s.waiting_for_priority && (s.current_priority_player == player_id)

/-- `GameState::all_players_passed_priority`. -/
def GameState.all_players_passed_priority (s : GameState) : Bool :=
  s.players_passed_priority.card == s.turn_order.order.length

/-- `GameState::get_next_phase`. -/
def GameState.get_next_phase (s : GameState) : TurnPhases :=
  match s.current_phase with
  | TurnPhases.UntapStartStep => TurnPhases.LootStep
  | TurnPhases.LootStep => TurnPhases.ActionStep
  | TurnPhases.ActionStep => TurnPhases.EndStep
  | TurnPhases.EndStep => TurnPhases.TurnEnd
  | TurnPhases.TurnEnd => TurnPhases.UntapStartStep

/-- `GameState::get_next_priority_player`: locate the current priority
player in `order`, then scan offsets `1..=order.len()` (wrapping) for
the first player not yet in the pass-set. -/
def GameState.get_next_priority_player (s : GameState) : Option String :=
  match s.turn_order.order.findIdx? (· == s.current_priority_player) with
  | none => none
  | some current_idx =>
    (List.range' 1 s.turn_order.order.length).findSome? fun i =>
      let next := s.turn_order.order.getD
        ((current_idx + i) % s.turn_order.order.length) ""
      if next ∈ s.players_passed_priority then none else some next

/-- `GameState::with_phase_transition` (src/game/game_state.rs). On
`TurnEnd` the turn rolls over: advance the turn order, reset the phase
to `UntapStartStep`, give priority to the new active player, clear the
pass-set, and draw one loot card for the new active player with the
draw's `Result` discarded (the board keeps whatever state the draw left
it in). On any other phase, set the phase and reset priority. -/
def GameState.with_phase_transition (shuffle : List LootCard → List LootCard)
    (s : GameState) (new_phase : TurnPhases) : GameState :=
  if new_phase = TurnPhases.TurnEnd then
    let turn_order := s.turn_order.advance_turn
    let board := (s.board.draw_loot_for_player shuffle turn_order.active_player_id).2
    { s with
      turn_order := turn_order
      current_phase := TurnPhases.UntapStartStep
      current_priority_player := turn_order.active_player_id
      waiting_for_priority := true
      players_passed_priority := ∅
      board := board }
  else
    { s with
      current_phase := new_phase
      waiting_for_priority := true
      players_passed_priority := ∅
      current_priority_player := s.turn_order.active_player_id }

/-- The body of `GameState::with_priority_pass` after the passing
player has been inserted into the pass-set: advance the phase when
everyone has passed, otherwise hand priority to the next player found
(or leave it unchanged when the scan finds nobody). -/
def priorityPassBody (shuffle : List LootCard → List LootCard)
    (s1 : GameState) : Except AppError GameState :=
  if s1.all_players_passed_priority then
    .ok (s1.with_phase_transition shuffle s1.get_next_phase)
  else
    match s1.get_next_priority_player with
    | some next_player => .ok { s1 with current_priority_player := next_player }
    | none => .ok s1

/-- `GameState::with_priority_pass` (src/game/game_state.rs): reject
unless the caller may pass priority, insert the caller into the
pass-set, then proceed as `priorityPassBody`. -/
def GameState.with_priority_pass (shuffle : List LootCard → List LootCard)
    (s : GameState) (player_id : String) : Except AppError GameState :=
  if ¬ s.can_player_pass_priority player_id then .error .InvalidPriorityPass
  else
    priorityPassBody shuffle
      { s with players_passed_priority := insert player_id s.players_passed_priority }

/-- Outbound server payloads, from the wire schema; the variant shapes
are pinned by their construction sites in `src/game/state_broadcaster.rs`
and `src/game/game_coordinator.rs`. Payloads are kept structured (the
source serialises them to JSON on send). -/
inductive ServerResponse where
  | TurnPhaseChange (player_id : String) (phase : TurnPhases)
  | PublicBoardState (hand_sizes : List (String × Nat)) (loot_deck_size : Nat)
      (loot_discard : List LootCard) (current_phase : TurnPhases)
      (active_player : String)
  | PrivateBoardState (hand : List LootCard)
  | GameEnded (winner_id : String)
  | ErrorResponse (error : AppError)
deriving DecidableEq, Repr

/-- Outbound delivery commands, from `ConnectionCommand`
(src/network/connection_commands.rs); only the two send shapes used by
the game core are embedded. -/
inductive ConnectionCommand where
  | SendToPlayer (connection_id : String) (message : ServerResponse)
  | SendToPlayers (connections_id : List String) (message : ServerResponse)
deriving DecidableEq, Repr

/-- `StateBroadcaster` (src/game/state_broadcaster.rs); the player-id to
connection-id `HashMap` is embedded as an association list. -/
structure StateBroadcaster where
  players_id_to_connection_id : List (String × String)
  room_connections_id : List String

/-- `StateBroadcaster::new`: `room_connections_id` collects the values
of the mapping. -/
def StateBroadcaster.new (players_id_to_connection_id : List (String × String)) :
    StateBroadcaster :=
  { players_id_to_connection_id := players_id_to_connection_id
    room_connections_id := players_id_to_connection_id.map (·.2) }

/-- The hand-size map sent in the public snapshot. -/
def Board.handSizes (b : Board) : List (String × Nat) :=
  b.players.map fun e => (e.1, e.2.hand.length)

/-- `StateBroadcaster::broadcast_public_state`: one fan-out command to
every room connection carrying hand sizes, deck size, the discard pile,
the phase and the active player. -/
def StateBroadcaster.broadcast_public_state (bc : StateBroadcaster)
    (state : GameState) : ConnectionCommand :=
  .SendToPlayers bc.room_connections_id
    (.PublicBoardState state.board.handSizes state.board.loot_deck.length
      state.board.loot_discard state.current_phase
      state.turn_order.active_player_id)

/-- `StateBroadcaster::broadcast_private_states`: for every mapped
player, a command to that player's connection carrying the full hand, or
a `PlayerNotFound` error response when the player is absent from the
board. -/
def StateBroadcaster.broadcast_private_states (bc : StateBroadcaster)
    (state : GameState) : List ConnectionCommand :=
  bc.players_id_to_connection_id.map fun e =>
    match state.board.getPlayer e.1 with
    | none => .SendToPlayer e.2 (.ErrorResponse .PlayerNotFound)
    | some player => .SendToPlayer e.2 (.PrivateBoardState player.hand)

/-- `StateBroadcaster::broadcast_full_state`: the public snapshot
followed by the per-player private snapshots. -/
def StateBroadcaster.broadcast_full_state (bc : StateBroadcaster)
    (state : GameState) : List ConnectionCommand :=
  bc.broadcast_public_state state :: bc.broadcast_private_states state

/-- `StateBroadcaster::broadcast_phase_start`. -/
def StateBroadcaster.broadcast_phase_start (bc : StateBroadcaster)
    (state : GameState) : ConnectionCommand :=
  .SendToPlayers bc.room_connections_id
    (.TurnPhaseChange state.current_priority_player state.current_phase)

/-- `StateBroadcaster::broadcast_game_ended`. -/
def StateBroadcaster.broadcast_game_ended (bc : StateBroadcaster)
    (winner_id : String) : ConnectionCommand :=
  .SendToPlayers bc.room_connections_id (.GameEnded winner_id)

/-- Game events, from `src/game/game_coordinator.rs` (`GameEvent`). -/
inductive GameEvent where
  | TurnPass (player_id : String)
  | PriorityPass (player_id : String)
deriving DecidableEq, Repr

/-- `GameCoordinator` (src/game/game_coordinator.rs). -/
structure GameCoordinator where
  game_state : GameState
  state_broadcaster : StateBroadcaster
  room_connections_id : List String

/-- `GameCoordinator::new`: player ids are the keys of the mapping, the
room connections its values. -/
def GameCoordinator.new (shuffle : List LootCard → List LootCard)
    (catalogue : List CardTemplate)
    (players_id_to_connection_id : List (String × String))
    (turn_order : TurnOrder) : Option GameCoordinator :=
  match GameState.new shuffle catalogue
      (players_id_to_connection_id.map (·.1)) turn_order with
  | none => none
  | some game_state => some
    { game_state := game_state
      room_connections_id := players_id_to_connection_id.map (·.2)
      state_broadcaster := StateBroadcaster.new players_id_to_connection_id }

/-- `GameCoordinator::handle_game_event` (src/game/game_coordinator.rs):
pure transition plus the `TurnPhaseChange` fan-out it enqueues. A
`TurnPass` is accepted exactly when `can_player_pass_turn`; a
`PriorityPass` is delegated to `with_priority_pass`. -/
def GameCoordinator.handle_game_event (shuffle : List LootCard → List LootCard)
    (c : GameCoordinator) : GameEvent → GameState →
    Except AppError (GameState × List ConnectionCommand)
  | .TurnPass player_id, current_state =>
    if current_state.can_player_pass_turn player_id then
      .ok (current_state.with_phase_transition shuffle TurnPhases.TurnEnd,
        [.SendToPlayers c.room_connections_id
          (.TurnPhaseChange
            (current_state.with_phase_transition shuffle
              TurnPhases.TurnEnd).turn_order.active_player_id
            TurnPhases.EndStep)])
    else .error .NotPlayerTurn
  | .PriorityPass player_id, current_state =>
    match current_state.with_priority_pass shuffle player_id with
    | .ok new_state =>
      .ok (new_state,
        [.SendToPlayers c.room_connections_id
          (.TurnPhaseChange new_state.current_priority_player
            TurnPhases.EndStep)])
    | .error .InvalidPriorityPass => .error .InvalidPriorityPass
    | .error _ => .error (.Internal "Unexpected game state error")

/-- `GameCoordinator::check_win_condition`. -/
def GameCoordinator.check_win_condition (c : GameCoordinator) : Bool :=
  100 ≤ c.game_state.turn_order.turn_counter

/-- `GameCoordinator::get_winner`: the first entry of the turn order. -/
def GameCoordinator.get_winner (c : GameCoordinator) : Option String :=
  c.game_state.turn_order.order.head?

/-- `GameCoordinator::end_game`: clear `game_running` and emit the
`GameEnded` broadcast. -/
def GameCoordinator.end_game (c : GameCoordinator) (winner_id : String) :
    GameCoordinator × List ConnectionCommand :=
  ({ c with game_state := { c.game_state with game_running := false } },
   [c.state_broadcaster.broadcast_game_ended winner_id])

/-- `GameCoordinator::is_running`. -/
def GameCoordinator.is_running (c : GameCoordinator) : Bool :=
  c.game_state.game_running

/-- The tail of `GameCoordinator::handle_event`: with the new state
already installed and the full-state broadcast already enqueued, check
the win condition and end the game when it holds and a winner exists. -/
def GameCoordinator.finishEvent (c1 : GameCoordinator)
    (cmds1 : List ConnectionCommand) :
    GameCoordinator × List ConnectionCommand :=
  if c1.check_win_condition then
    match c1.get_winner with
    | some winner => ((c1.end_game winner).1, cmds1 ++ (c1.end_game winner).2)
    | none => (c1, cmds1)
  else (c1, cmds1)

/-- `GameCoordinator::handle_event` (src/game/game_coordinator.rs): on a
successful transition, install the new state, broadcast the full state,
and when the win condition holds and a winner exists, end the game. The
second component collects every command enqueued, in order. -/
def GameCoordinator.handle_event (shuffle : List LootCard → List LootCard)
    (c : GameCoordinator) (event : GameEvent) :
    Except AppError (GameCoordinator × List ConnectionCommand) :=
  match c.handle_game_event shuffle event c.game_state with
  | .error e => .error e
  | .ok (new_state, cmds) =>
    .ok (GameCoordinator.finishEvent { c with game_state := new_state }
      (cmds ++ ({ c with game_state := new_state }).state_broadcaster.broadcast_full_state
        new_state))

/-- `GameCoordinator::transition_to_phase` (src/game/game_coordinator.rs):
apply the phase transition; when the resulting phase is `LootStep`,
additionally draw one loot card for the active player (result
discarded); when the resulting phase is not `TurnEnd`, broadcast the
phase start. -/
def GameCoordinator.transition_to_phase (shuffle : List LootCard → List LootCard)
    (c : GameCoordinator) (new_phase : TurnPhases) :
    GameCoordinator × List ConnectionCommand :=
  let s1 := c.game_state.with_phase_transition shuffle new_phase
  let s2 :=
    if s1.current_phase = TurnPhases.LootStep then
      { s1 with board :=
        (s1.board.draw_loot_for_player shuffle s1.turn_order.active_player_id).2 }
    else s1
  let c1 := { c with game_state := s2 }
  if s2.current_phase ≠ TurnPhases.TurnEnd then
    (c1, [c1.state_broadcaster.broadcast_phase_start c1.game_state])
  else (c1, [])

/-- Embeds `GameCoordinator::initialize_game` (src/game/game_coordinator.rs):
broadcast the initial full state, then enter the current phase through
`transition_to_phase`. -/
def GameCoordinator.init_game (shuffle : List LootCard → List LootCard)
    (c : GameCoordinator) : GameCoordinator × List ConnectionCommand :=
  let cmds0 := c.state_broadcaster.broadcast_full_state c.game_state
  let stepped := c.transition_to_phase shuffle c.game_state.current_phase
  (stepped.1, cmds0 ++ stepped.2)

/-- Room lifecycle state, from `src/network/room.rs` (`RoomState`). -/
inductive RoomState where
  | Lobby
  | InGame
deriving DecidableEq, Repr

/-- A lobby room, from `src/network/room.rs` (`Room`). The player
`HashMap` (id to name) is an association list, the ready `HashSet` a
`Finset`. -/
structure Room where
  id : String
  name : String
  players : List (String × String)
  state : RoomState
  max_players : Nat
  min_players : Nat
  players_ready : Finset String

/-- `Room::new` (src/network/room.rs); the freshly generated UUID is a
parameter of the embedding. -/
def Room.new (uuid : String) (name : String) : Room :=
  { id := uuid
    name := name
    players := []
    players_ready := ∅
    state := RoomState.Lobby
    max_players := 4
    min_players := 2 }

/-- `Room::player_count`. -/
def Room.player_count (r : Room) : Nat := r.players.length

/-- `Room::can_start_game` (src/network/room.rs, lines 66-68). -/
def Room.can_start_game (r : Room) : Bool :=
  (r.players_ready.card == r.player_count) && (r.state == RoomState.Lobby)

/-! ### Concrete sample data used by witnesses and counterexamples -/

def cardA0 : LootCard := ⟨⟨"a#0", "a", "A", "", Zone.LootDeck, CardType.Loot, "", ""⟩⟩

def cardA1 : LootCard := ⟨⟨"a#1", "a", "A", "", Zone.LootDeck, CardType.Loot, "", ""⟩⟩

def cardA2 : LootCard := ⟨⟨"a#2", "a", "A", "", Zone.LootDeck, CardType.Loot, "", ""⟩⟩

def cardB0 : LootCard := ⟨⟨"b#0", "b", "B", "", Zone.LootDeck, CardType.Loot, "", ""⟩⟩

def cardC0 : LootCard := ⟨⟨"c#0", "c", "C", "", Zone.LootDeck, CardType.Loot, "", ""⟩⟩

/-- A one-template catalogue with three copies. -/
def catalogueA3 : List CardTemplate := [⟨"a", "A", "loot", "", "", 3⟩]

/-- A board with a single player holding a single card. -/
def boardOneCard : Board := ⟨[], [], [("p1", ⟨[cardA0], 2, 2, true, true⟩)]⟩

/-- C6. The claim states that on a match `remove_card_from_hand`
returns the first matching card AND deletes it from the player's hand.
The source computes the removal on a clone of the hand and never writes
it back, so the stored hand is unchanged: at the failing input below the
call succeeds yet the post-state hand still contains the removed card,
where the claim requires the post-state hand to be empty. -/
theorem remove_card_from_hand_bug :
    (boardOneCard.remove_card_from_hand "p1" "a").1 = .ok cardA0
    ∧ (boardOneCard.remove_card_from_hand "p1" "a").2 = boardOneCard
    ∧ ((boardOneCard.remove_card_from_hand "p1" "a").2.getPlayer "p1").map
        Player.hand = some [cardA0]
    ∧ ¬ ((boardOneCard.remove_card_from_hand "p1" "a").2.getPlayer "p1").map
        Player.hand = some [] := by
  decide

/-- C3. The board obtained by `Board::new` on the three-card catalogue
with one player: all three cards are dealt (pop order), the deck is
empty. -/
theorem board_new_catalogueA3 :
    Board.new id catalogueA3 ["p1"] =
      some ⟨[], [], [("p1", ⟨[cardA2, cardA1, cardA0], 2, 2, true, true⟩)]⟩ := by
  decide

/-- The board reached from `Board.new id catalogueA3 ["p1"]` by the
remove-then-discard trace of `catalogue_conservation_bug`. -/
def boardAfterTrace : Board :=
  ((⟨[], [], [("p1", ⟨[cardA2, cardA1, cardA0], 2, 2, true, true⟩)]⟩ :
      Board).remove_card_from_hand "p1" "a").2.discard_loot_card cardA2

/-- C3. Catalogue conservation fails on the code: starting from
`Board::new` on the three-card catalogue, removing card `cardA2` from
the hand (the source returns it without deleting it from the stored
hand) and then discarding that removed card leaves the board holding
the catalogue multiset PLUS a duplicate of the removed card. -/
theorem catalogue_conservation_bug :
    ((⟨[], [], [("p1", ⟨[cardA2, cardA1, cardA0], 2, 2, true, true⟩)]⟩ :
        Board).remove_card_from_hand "p1" "a").1 = .ok cardA2
    ∧ boardAfterTrace.cards = ↑(create_loot_deck catalogueA3) + {cardA2}
    ∧ boardAfterTrace.cards ≠ ↑(create_loot_deck catalogueA3) := by
  decide

/-- C7. The claim includes a minimum-player-count conjunct
(`player_count ≥ min_players`, with `min_players = 2`) in
`can_start_game`. The source checks only readiness and lobby state: a
freshly created empty room (zero players, zero ready, in `Lobby`)
already satisfies `can_start_game`, so the claimed equivalence fails. -/
theorem can_start_game_missing_min_players :
    ¬ (((Room.new "r1" "Test").can_start_game = true) ↔
        ((Room.new "r1" "Test").players_ready.card
            = (Room.new "r1" "Test").player_count
          ∧ (Room.new "r1" "Test").state = RoomState.Lobby
          ∧ (Room.new "r1" "Test").min_players
              ≤ (Room.new "r1" "Test").player_count)) := by
  decide

/-- C7 (amended). `can_start_game` returns true exactly when every
player in the room is ready (the ready-set, a subset of the player-id
set with no duplicate ids, covers it) and the room is in `Lobby`; no
minimum-player-count condition is enforced. -/
theorem can_start_game_correct (r : Room)
    (hnodup : (r.players.map Prod.fst).Nodup)
    (hsub : ∀ q ∈ r.players_ready, q ∈ r.players.map Prod.fst) :
    r.can_start_game = true ↔
      (r.players_ready = (r.players.map Prod.fst).toFinset
        ∧ r.state = RoomState.Lobby) := by
  have hsub2 : r.players_ready ⊆ (r.players.map Prod.fst).toFinset := by
    intro q hq
    simpa using hsub q hq
  have hcard : ((r.players.map Prod.fst).toFinset).card = r.player_count := by
    rw [List.toFinset_card_of_nodup hnodup]
    simp [Room.player_count]
  constructor
  · intro h
    have h1 : r.players_ready.card = r.player_count ∧ r.state = RoomState.Lobby := by
      simpa [Room.can_start_game] using h
    refine ⟨?_, h1.2⟩
    exact Finset.eq_of_subset_of_card_le hsub2 (by rw [hcard, h1.1])
  · rintro ⟨h1, h2⟩
    simp [Room.can_start_game, h1, h2, hcard]

/-- A two-player room with both players ready. -/
def roomReady2 : Room :=
  { Room.new "r1" "Test" with
    players := [("p1", "Alice"), ("p2", "Bob")]
    players_ready := {"p1", "p2"} }

/-- Witness for `can_start_game_correct` at a concrete two-player
room. -/
theorem can_start_game_correct_witness :
    roomReady2.can_start_game = true ↔
      (roomReady2.players_ready = (roomReady2.players.map Prod.fst).toFinset
        ∧ roomReady2.state = RoomState.Lobby) :=
  can_start_game_correct roomReady2 (by decide) (by decide)

/-! ### Helper lemmas -/

theorem findIdxQ_beq_eq_indexOf (l : List String) (a : String) (h : a ∈ l) :
    l.findIdx? (· == a) = some (l.indexOf a) := by
  induction l with
  | nil => cases h
  | cons x xs ih =>
    rw [List.findIdx?_cons, List.indexOf_cons]
    by_cases hx : x = a
    · simp [hx]
    · have hxa : (x == a) = false := by simp [hx]
      rw [hxa]
      simp only [cond_false, if_neg (by simp [hx] : ¬ (x == a) = true)]
      rw [List.findIdx?_succ]
      have hmem : a ∈ xs := by
        cases h with
        | head => exact absurd rfl hx
        | tail _ h2 => exact h2
      rw [ih hmem]
      rfl

theorem indexOf_lt_length_of_mem (l : List String) (a : String) (h : a ∈ l) :
    l.indexOf a < l.length :=
  List.indexOf_lt_length.mpr h

/-- `advance_turn`, resolved when the active player occurs in the
order list. -/
theorem advance_turn_of_mem (t : TurnOrder)
    (h : t.active_player_id ∈ t.order) :
    t.advance_turn =
      { t with
        active_player_id := t.order.getD
          ((t.order.indexOf t.active_player_id + 1) % t.order.length)
          t.active_player_id,
        turn_counter := t.turn_counter + 1 } := by
  unfold TurnOrder.advance_turn
  rw [findIdxQ_beq_eq_indexOf t.order t.active_player_id h]

/-- `reshuffle_loot_deck` never touches the player map. -/
theorem reshuffle_loot_deck_players (shuffle : List LootCard → List LootCard)
    (b : Board) : (b.reshuffle_loot_deck shuffle).2.players = b.players := by
  unfold Board.reshuffle_loot_deck
  split
  · rfl
  · split <;> rfl

/-- `refillDeck` never touches the player map. -/
theorem refillDeck_players (shuffle : List LootCard → List LootCard)
    (b : Board) : (b.refillDeck shuffle).2.players = b.players := by
  unfold Board.refillDeck
  split
  · exact reshuffle_loot_deck_players shuffle b
  · rfl

/-- When a draw fails, no player's hand was touched. -/
theorem draw_error_keeps_players (shuffle : List LootCard → List LootCard)
    (b : Board) (player_id : String)
    (h : ∀ card, (b.draw_loot_for_player shuffle player_id).1 ≠ .ok card) :
    (b.draw_loot_for_player shuffle player_id).2.players = b.players := by
  unfold Board.draw_loot_for_player at h ⊢
  by_cases hget : (b.getPlayer player_id).isNone = true
  · simp [hget]
  · rw [if_neg hget] at h ⊢
    cases hstep : b.refillDeck shuffle with
    | mk res b1 =>
      have hb1 : b1.players = b.players := by
        have hr := refillDeck_players shuffle b
        rw [hstep] at hr
        exact hr
      cases res with
      | error e => exact hb1
      | ok u =>
        show (match popCard b1.loot_deck with
          | none => ((Except.error AppError.EmptyLootDeck : Except AppError LootCard), b1)
          | some (card, deck1) =>
            (Except.ok card,
              { b1 with loot_deck := deck1,
                        players := updateHand b1.players player_id (· ++ [card]) })).2.players
          = b.players
        cases hpop : popCard b1.loot_deck with
        | none => exact hb1
        | some pr =>
          obtain ⟨c, dk⟩ := pr
          exfalso
          apply h c
          rw [hstep]
          show (match popCard b1.loot_deck with
            | none => ((Except.error AppError.EmptyLootDeck : Except AppError LootCard), b1)
            | some (card, deck1) =>
              (Except.ok card,
                { b1 with loot_deck := deck1,
                          players := updateHand b1.players player_id (· ++ [card]) })).1
            = Except.ok c
          rw [hpop]

/-- C2. On `with_phase_transition(TurnEnd)` (with the active player
occurring in the order list) the turn rolls over: the new active player
is the next in rotation, the counter increments, the phase resets to
`UntapStartStep`, priority is handed to the new active player with a
cleared pass-set, and the board is the old board after drawing one loot
card for the new active player. -/
theorem with_phase_transition_turn_end_correct
    (shuffle : List LootCard → List LootCard) (s : GameState)
    (hmem : s.turn_order.active_player_id ∈ s.turn_order.order) :
    let idx := s.turn_order.order.indexOf s.turn_order.active_player_id
    let newActive := s.turn_order.order.getD
      ((idx + 1) % s.turn_order.order.length) s.turn_order.active_player_id
    let s2 := s.with_phase_transition shuffle TurnPhases.TurnEnd
    s2.turn_order.active_player_id = newActive
    ∧ s2.turn_order.order = s.turn_order.order
    ∧ s2.turn_order.turn_counter = s.turn_order.turn_counter + 1
    ∧ s2.current_phase = TurnPhases.UntapStartStep
    ∧ s2.current_priority_player = newActive
    ∧ s2.waiting_for_priority = true
    ∧ s2.players_passed_priority = ∅
    ∧ s2.board = (s.board.draw_loot_for_player shuffle newActive).2 := by
  intro idx newActive s2
  have hadv : s.turn_order.advance_turn =
      { s.turn_order with
        active_player_id := newActive
        turn_counter := s.turn_order.turn_counter + 1 } :=
    advance_turn_of_mem s.turn_order hmem
  have hs2 : s2 = { s with
      turn_order := s.turn_order.advance_turn
      current_phase := TurnPhases.UntapStartStep
      current_priority_player := s.turn_order.advance_turn.active_player_id
      waiting_for_priority := true
      players_passed_priority := ∅
      board := (s.board.draw_loot_for_player shuffle
        s.turn_order.advance_turn.active_player_id).2 } := by
    show s.with_phase_transition shuffle TurnPhases.TurnEnd = _
    unfold GameState.with_phase_transition
    rw [if_pos rfl]
  rw [hs2, hadv]
  refine ⟨rfl, rfl, rfl, rfl, rfl, rfl, rfl, rfl⟩

/-- A game state used as witness input: two players, empty deck and
discard, active player `p1`. -/
def stateEmptyDeck : GameState :=
  { turn_order := ⟨["p1", "p2"], "p1", 0⟩
    current_phase := TurnPhases.EndStep
    current_priority_player := "p1"
    players_passed_priority := ∅
    board := ⟨[], [], [("p1", ⟨[], 2, 2, true, true⟩), ("p2", ⟨[], 2, 2, true, true⟩)]⟩
    game_running := true
    waiting_for_priority := true }

/-- Witness for `with_phase_transition_turn_end_correct` at a concrete
two-player state. -/
theorem with_phase_transition_turn_end_correct_witness :
    let idx := stateEmptyDeck.turn_order.order.indexOf
      stateEmptyDeck.turn_order.active_player_id
    let newActive := stateEmptyDeck.turn_order.order.getD
      ((idx + 1) % stateEmptyDeck.turn_order.order.length)
      stateEmptyDeck.turn_order.active_player_id
    let s2 := stateEmptyDeck.with_phase_transition id TurnPhases.TurnEnd
    s2.turn_order.active_player_id = newActive
    ∧ s2.turn_order.order = stateEmptyDeck.turn_order.order
    ∧ s2.turn_order.turn_counter = stateEmptyDeck.turn_order.turn_counter + 1
    ∧ s2.current_phase = TurnPhases.UntapStartStep
    ∧ s2.current_priority_player = newActive
    ∧ s2.waiting_for_priority = true
    ∧ s2.players_passed_priority = ∅
    ∧ s2.board = (stateEmptyDeck.board.draw_loot_for_player id newActive).2 :=
  with_phase_transition_turn_end_correct id stateEmptyDeck (by decide)

/-- C10. When the automatic draw of the turn rollover fails (for
instance with deck and discard both empty), `with_phase_transition
(TurnEnd)` still completes the rollover — counter advanced, phase
reset, priority reset — and no player's hand changes; no error is
surfaced (the transition is total). -/
theorem turn_end_rollover_survives_failed_draw
    (shuffle : List LootCard → List LootCard) (s : GameState)
    (hmem : s.turn_order.active_player_id ∈ s.turn_order.order)
    (hfail : ∀ card, (s.board.draw_loot_for_player shuffle
        s.turn_order.advance_turn.active_player_id).1 ≠ .ok card) :
    let s2 := s.with_phase_transition shuffle TurnPhases.TurnEnd
    s2.turn_order.turn_counter = s.turn_order.turn_counter + 1
    ∧ s2.current_phase = TurnPhases.UntapStartStep
    ∧ s2.waiting_for_priority = true
    ∧ s2.players_passed_priority = ∅
    ∧ s2.current_priority_player = s2.turn_order.active_player_id
    ∧ s2.board.players = s.board.players := by
  intro s2
  have hs2 : s2 = { s with
      turn_order := s.turn_order.advance_turn
      current_phase := TurnPhases.UntapStartStep
      current_priority_player := s.turn_order.advance_turn.active_player_id
      waiting_for_priority := true
      players_passed_priority := ∅
      board := (s.board.draw_loot_for_player shuffle
        s.turn_order.advance_turn.active_player_id).2 } := by
    show s.with_phase_transition shuffle TurnPhases.TurnEnd = _
    unfold GameState.with_phase_transition
    rw [if_pos rfl]
  have hcounter : s.turn_order.advance_turn.turn_counter
      = s.turn_order.turn_counter + 1 := by
    rw [advance_turn_of_mem s.turn_order hmem]
  rw [hs2]
  exact ⟨hcounter, rfl, rfl, rfl, rfl,
    draw_error_keeps_players shuffle s.board _ hfail⟩

/-- Witness for `turn_end_rollover_survives_failed_draw`: at
`stateEmptyDeck` the rollover draw fails with `EmptyLootDeck`, yet the
rollover completes and hands are untouched. -/
theorem turn_end_rollover_survives_failed_draw_witness :
    let s2 := stateEmptyDeck.with_phase_transition id TurnPhases.TurnEnd
    s2.turn_order.turn_counter = stateEmptyDeck.turn_order.turn_counter + 1
    ∧ s2.current_phase = TurnPhases.UntapStartStep
    ∧ s2.waiting_for_priority = true
    ∧ s2.players_passed_priority = ∅
    ∧ s2.current_priority_player = s2.turn_order.active_player_id
    ∧ s2.board.players = stateEmptyDeck.board.players :=
  turn_end_rollover_survives_failed_draw id stateEmptyDeck (by decide)
    (by
      intro card
      have h : (stateEmptyDeck.board.draw_loot_for_player id
          stateEmptyDeck.turn_order.advance_turn.active_player_id).1
          = Except.error AppError.EmptyLootDeck := by decide
      rw [h]
      simp)

/-- A concrete coordinator used by witnesses: two players, `p1`
active. -/
def coordTwoPlayers : GameCoordinator :=
  { game_state := stateEmptyDeck
    state_broadcaster := StateBroadcaster.new [("p1", "c1"), ("p2", "c2")]
    room_connections_id := ["c1", "c2"] }

/-- C9. A `TurnPass` event from `p` is accepted (returning the
`TurnEnd` rollover state) exactly when `p` is the turn-order active
player, is rejected with `NotPlayerTurn` otherwise, and the current
phase, the `waiting_for_priority` flag and the priority pass-set have no
influence on acceptance. -/
theorem turn_pass_acceptance (shuffle : List LootCard → List LootCard)
    (c : GameCoordinator) (s : GameState) (p : String) :
    ((∃ r, c.handle_game_event shuffle (.TurnPass p) s = .ok r) ↔
        s.turn_order.active_player_id = p)
    ∧ (s.turn_order.active_player_id = p →
        c.handle_game_event shuffle (.TurnPass p) s =
          .ok (s.with_phase_transition shuffle TurnPhases.TurnEnd,
            [.SendToPlayers c.room_connections_id
              (.TurnPhaseChange
                (s.with_phase_transition shuffle
                  TurnPhases.TurnEnd).turn_order.active_player_id
                TurnPhases.EndStep)]))
    ∧ (s.turn_order.active_player_id ≠ p →
        c.handle_game_event shuffle (.TurnPass p) s = .error .NotPlayerTurn)
    ∧ (∀ phase w passed,
        ((∃ r, c.handle_game_event shuffle (.TurnPass p)
            { s with current_phase := phase, waiting_for_priority := w,
                     players_passed_priority := passed } = .ok r) ↔
          (∃ r, c.handle_game_event shuffle (.TurnPass p) s = .ok r))) := by
  by_cases h : s.turn_order.active_player_id = p
  · constructor
    · simp [GameCoordinator.handle_game_event, GameState.can_player_pass_turn,
        TurnOrder.is_player_turn, h]
    · constructor
      · intro _
        simp [GameCoordinator.handle_game_event, GameState.can_player_pass_turn,
          TurnOrder.is_player_turn, h]
      · constructor
        · intro hne
          exact absurd h hne
        · intro phase w passed
          simp [GameCoordinator.handle_game_event, GameState.can_player_pass_turn,
            TurnOrder.is_player_turn, h]
  · constructor
    · simp [GameCoordinator.handle_game_event, GameState.can_player_pass_turn,
        TurnOrder.is_player_turn, h]
    · constructor
      · intro heq
        exact absurd heq h
      · constructor
        · intro _
          simp [GameCoordinator.handle_game_event, GameState.can_player_pass_turn,
            TurnOrder.is_player_turn, h]
        · intro phase w passed
          simp [GameCoordinator.handle_game_event, GameState.can_player_pass_turn,
            TurnOrder.is_player_turn, h]

/-- Witness for `turn_pass_acceptance`: with `p1` active, a `TurnPass`
from `p2` is rejected with `NotPlayerTurn` even in a different phase
with priority pending. -/
theorem turn_pass_acceptance_witness :
    coordTwoPlayers.handle_game_event id (.TurnPass "p2") stateEmptyDeck
      = .error .NotPlayerTurn :=
  (turn_pass_acceptance id coordTwoPlayers stateEmptyDeck "p2").2.2.1 (by decide)

/-- The payload carried by a delivery command. -/
def ConnectionCommand.payload : ConnectionCommand → ServerResponse
  | .SendToPlayer _ m => m
  | .SendToPlayers _ m => m

/-- A command that delivers a `GameEnded` notice. -/
def isGameEndedCmd (cmd : ConnectionCommand) : Prop :=
  ∃ w, cmd.payload = ServerResponse.GameEnded w

theorem advance_turn_order (t : TurnOrder) : t.advance_turn.order = t.order := by
  unfold TurnOrder.advance_turn
  split <;> rfl

theorem with_phase_transition_running_order
    (shuffle : List LootCard → List LootCard) (s : GameState) (ph : TurnPhases) :
    (s.with_phase_transition shuffle ph).game_running = s.game_running
    ∧ (s.with_phase_transition shuffle ph).turn_order.order
        = s.turn_order.order := by
  unfold GameState.with_phase_transition
  split
  · exact ⟨rfl, advance_turn_order s.turn_order⟩
  · exact ⟨rfl, rfl⟩

theorem priorityPassBody_running_order
    (shuffle : List LootCard → List LootCard) (s1 : GameState)
    (s2 : GameState) (h : priorityPassBody shuffle s1 = .ok s2) :
    s2.game_running = s1.game_running
    ∧ s2.turn_order.order = s1.turn_order.order := by
  unfold priorityPassBody at h
  split at h
  · cases h
    exact with_phase_transition_running_order shuffle _ _
  · split at h
    · cases h
      exact ⟨rfl, rfl⟩
    · cases h
      exact ⟨rfl, rfl⟩

theorem with_priority_pass_running_order
    (shuffle : List LootCard → List LootCard) (s : GameState) (p : String)
    (s2 : GameState) (h : s.with_priority_pass shuffle p = .ok s2) :
    s2.game_running = s.game_running
    ∧ s2.turn_order.order = s.turn_order.order := by
  unfold GameState.with_priority_pass at h
  split at h
  · simp at h
  · exact priorityPassBody_running_order shuffle
      { s with players_passed_priority := insert p s.players_passed_priority } s2 h

theorem handle_game_event_running_order
    (shuffle : List LootCard → List LootCard) (c : GameCoordinator)
    (event : GameEvent) (s : GameState) (s2 : GameState)
    (cmds : List ConnectionCommand)
    (h : c.handle_game_event shuffle event s = .ok (s2, cmds)) :
    s2.game_running = s.game_running
    ∧ s2.turn_order.order = s.turn_order.order := by
  cases event with
  | TurnPass p =>
    rw [GameCoordinator.handle_game_event] at h
    split at h
    · injection h with h2
      injection h2 with h3 h4
      rw [← h3]
      exact with_phase_transition_running_order shuffle s TurnPhases.TurnEnd
    · simp at h
  | PriorityPass p =>
    rw [GameCoordinator.handle_game_event] at h
    cases hpp : s.with_priority_pass shuffle p with
    | ok s3 =>
      rw [hpp] at h
      injection h with h2
      injection h2 with h3 h4
      rw [← h3]
      exact with_priority_pass_running_order shuffle s p s3 hpp
    | error e =>
      rw [hpp] at h
      cases e <;> simp at h

theorem handle_game_event_no_game_ended
    (shuffle : List LootCard → List LootCard) (c : GameCoordinator)
    (event : GameEvent) (s : GameState) (s2 : GameState)
    (cmds : List ConnectionCommand)
    (h : c.handle_game_event shuffle event s = .ok (s2, cmds)) :
    ∀ cmd ∈ cmds, ¬ isGameEndedCmd cmd := by
  cases event with
  | TurnPass p =>
    rw [GameCoordinator.handle_game_event] at h
    split at h
    · injection h with h2
      injection h2 with h3 h4
      rw [← h4]
      intro cmd hc
      simp at hc
      subst hc
      rintro ⟨w, hw⟩
      simp [ConnectionCommand.payload] at hw
    · simp at h
  | PriorityPass p =>
    rw [GameCoordinator.handle_game_event] at h
    cases hpp : s.with_priority_pass shuffle p with
    | ok s3 =>
      rw [hpp] at h
      injection h with h2
      injection h2 with h3 h4
      rw [← h4]
      intro cmd hc
      simp at hc
      subst hc
      rintro ⟨w, hw⟩
      simp [ConnectionCommand.payload] at hw
    | error e =>
      rw [hpp] at h
      cases e <;> simp at h

theorem broadcast_full_state_no_game_ended (bc : StateBroadcaster)
    (s : GameState) :
    ∀ cmd ∈ bc.broadcast_full_state s, ¬ isGameEndedCmd cmd := by
  intro cmd hc
  unfold StateBroadcaster.broadcast_full_state at hc
  cases hc with
  | head =>
    rintro ⟨w, hw⟩
    simp [StateBroadcaster.broadcast_public_state, ConnectionCommand.payload] at hw
  | tail _ hmem =>
    unfold StateBroadcaster.broadcast_private_states at hmem
    have hmem2 : cmd ∈ (StateBroadcaster.mk bc.players_id_to_connection_id
        bc.room_connections_id).players_id_to_connection_id.map (fun e =>
      match s.board.getPlayer e.1 with
      | none => ConnectionCommand.SendToPlayer e.2 (.ErrorResponse .PlayerNotFound)
      | some player => ConnectionCommand.SendToPlayer e.2
          (.PrivateBoardState player.hand)) := hmem
    rw [List.mem_map] at hmem2
    obtain ⟨e, _, he⟩ := hmem2
    rintro ⟨w, hw⟩
    rw [← he] at hw
    cases hget : s.board.getPlayer e.1 <;>
      simp [hget, ConnectionCommand.payload] at hw

theorem finishEvent_spec (c1 : GameCoordinator) (cmds1 : List ConnectionCommand)
    (hrun1 : c1.game_state.game_running = true)
    (hord1 : c1.game_state.turn_order.order ≠ [])
    (hnge : ∀ cmd ∈ cmds1, ¬ isGameEndedCmd cmd) :
    ((c1.finishEvent cmds1).1.game_state.turn_order.turn_counter
        = c1.game_state.turn_order.turn_counter)
    ∧ ((c1.finishEvent cmds1).1.game_state.turn_order.order
        = c1.game_state.turn_order.order)
    ∧ (100 ≤ c1.game_state.turn_order.turn_counter →
        (c1.finishEvent cmds1).1.game_state.game_running = false
        ∧ ∃ w, c1.game_state.turn_order.order.head? = some w
            ∧ ConnectionCommand.SendToPlayers
                c1.state_broadcaster.room_connections_id
                (ServerResponse.GameEnded w) ∈ (c1.finishEvent cmds1).2)
    ∧ (c1.game_state.turn_order.turn_counter < 100 →
        (c1.finishEvent cmds1).1.game_state.game_running = true
        ∧ ∀ cmd ∈ (c1.finishEvent cmds1).2, ¬ isGameEndedCmd cmd) := by
  unfold GameCoordinator.finishEvent
  by_cases hwin : 100 ≤ c1.game_state.turn_order.turn_counter
  · have hcheck : c1.check_win_condition = true := by
      simp [GameCoordinator.check_win_condition, hwin]
    rw [if_pos hcheck]
    obtain ⟨w, t, hwt⟩ : ∃ w t, c1.game_state.turn_order.order = w :: t := by
      cases ho : c1.game_state.turn_order.order with
      | nil => exact absurd ho hord1
      | cons w t => exact ⟨w, t, rfl⟩
    have hwinner : c1.get_winner = some w := by
      simp [GameCoordinator.get_winner, hwt]
    rw [hwinner]
    refine ⟨rfl, rfl, ?_, ?_⟩
    · intro _
      refine ⟨rfl, w, by simp [hwt], ?_⟩
      simp [GameCoordinator.end_game, StateBroadcaster.broadcast_game_ended]
    · intro hlt
      exact absurd hwin (by omega)
  · have hcheck : c1.check_win_condition = false := by
      simp [GameCoordinator.check_win_condition, hwin]
    rw [if_neg (by simp [hcheck])]
    refine ⟨rfl, rfl, ?_, ?_⟩
    · intro hge
      exact absurd hge hwin
    · intro _
      exact ⟨hrun1, hnge⟩

/-- C8. After `handle_event` successfully applies an event to a running
game (with a non-empty turn order): when the resulting turn counter has
reached 100 the game ends — `game_running` becomes false and a
`GameEnded` broadcast naming `turn_order.order[0]` is emitted — and when
it is below 100 the game stays running and no `GameEnded` notice is
emitted. -/
theorem handle_event_win_condition (shuffle : List LootCard → List LootCard)
    (c : GameCoordinator) (event : GameEvent) (c2 : GameCoordinator)
    (cmds : List ConnectionCommand)
    (hrun : c.game_state.game_running = true)
    (hord : c.game_state.turn_order.order ≠ [])
    (h : c.handle_event shuffle event = .ok (c2, cmds)) :
    (100 ≤ c2.game_state.turn_order.turn_counter →
        c2.game_state.game_running = false
        ∧ ∃ w, c2.game_state.turn_order.order.head? = some w
            ∧ ConnectionCommand.SendToPlayers
                c.state_broadcaster.room_connections_id
                (ServerResponse.GameEnded w) ∈ cmds)
    ∧ (c2.game_state.turn_order.turn_counter < 100 →
        c2.game_state.game_running = true
        ∧ ∀ cmd ∈ cmds, ¬ isGameEndedCmd cmd) := by
  unfold GameCoordinator.handle_event at h
  cases hge : c.handle_game_event shuffle event c.game_state with
  | error e =>
    rw [hge] at h
    simp at h
  | ok pr =>
    obtain ⟨new_state, cmds0⟩ := pr
    rw [hge] at h
    have hro := handle_game_event_running_order shuffle c event c.game_state
      new_state cmds0 hge
    have hnge0 := handle_game_event_no_game_ended shuffle c event c.game_state
      new_state cmds0 hge
    have hrun1 : ({ c with game_state := new_state } :
        GameCoordinator).game_state.game_running = true := by
      rw [show ({ c with game_state := new_state } :
        GameCoordinator).game_state = new_state from rfl, hro.1, hrun]
    have hord1 : ({ c with game_state := new_state } :
        GameCoordinator).game_state.turn_order.order ≠ [] := by
      rw [show ({ c with game_state := new_state } :
        GameCoordinator).game_state = new_state from rfl, hro.2]
      exact hord
    have hnge1 : ∀ cmd ∈ cmds0 ++ ({ c with game_state := new_state } :
        GameCoordinator).state_broadcaster.broadcast_full_state new_state,
        ¬ isGameEndedCmd cmd := by
      intro cmd hc
      rcases List.mem_append.mp hc with h1 | h2
      · exact hnge0 cmd h1
      · exact broadcast_full_state_no_game_ended _ new_state cmd h2
    have hfin := finishEvent_spec { c with game_state := new_state }
      (cmds0 ++ ({ c with game_state := new_state } :
        GameCoordinator).state_broadcaster.broadcast_full_state new_state)
      hrun1 hord1 hnge1
    have hc2 : GameCoordinator.finishEvent { c with game_state := new_state }
        (cmds0 ++ ({ c with game_state := new_state } :
          GameCoordinator).state_broadcaster.broadcast_full_state new_state)
        = (c2, cmds) := by
      injection h with h2
    rw [hc2] at hfin
    obtain ⟨hcnt, hordeq, hwin, hlt⟩ := hfin
    constructor
    · intro hge100
      rw [hcnt] at hge100
      obtain ⟨hrunf, w, hw, hmem⟩ := hwin hge100
      exact ⟨hrunf, w, by rw [hordeq]; exact hw, hmem⟩
    · intro hlt100
      rw [hcnt] at hlt100
      exact hlt hlt100

/-- The pair produced by a concrete successful `handle_event`. -/
def afterPassPair : GameCoordinator × List ConnectionCommand :=
  match coordTwoPlayers.handle_event id (.TurnPass "p1") with
  | .ok pr => pr
  | .error _ => (coordTwoPlayers, [])

/-- Witness for `handle_event_win_condition`: a successful `TurnPass`
on the concrete two-player coordinator (turn counter goes to 1). -/
theorem handle_event_win_condition_witness :
    (100 ≤ afterPassPair.1.game_state.turn_order.turn_counter →
        afterPassPair.1.game_state.game_running = false
        ∧ ∃ w, afterPassPair.1.game_state.turn_order.order.head? = some w
            ∧ ConnectionCommand.SendToPlayers
                coordTwoPlayers.state_broadcaster.room_connections_id
                (ServerResponse.GameEnded w) ∈ afterPassPair.2)
    ∧ (afterPassPair.1.game_state.turn_order.turn_counter < 100 →
        afterPassPair.1.game_state.game_running = true
        ∧ ∀ cmd ∈ afterPassPair.2, ¬ isGameEndedCmd cmd) :=
  handle_event_win_condition id coordTwoPlayers (.TurnPass "p1")
    afterPassPair.1 afterPassPair.2 (by decide) (by decide) (by rfl)

theorem popCard_length (deck : List LootCard) (c : LootCard)
    (deck1 : List LootCard) (h : popCard deck = some (c, deck1)) :
    deck.length = deck1.length + 1 := by
  unfold popCard at h
  cases hlast : deck.getLast? with
  | none => rw [hlast] at h; cases h
  | some c0 =>
    rw [hlast] at h
    cases h
    have hne : deck ≠ [] := by
      intro hnil
      rw [hnil] at hlast
      cases hlast
    have hpos : 0 < deck.length := List.length_pos.mpr hne
    rw [List.length_dropLast]
    omega

theorem dealHand_spec (deck : List LootCard) (n : Nat)
    (cards : List LootCard) (deck2 : List LootCard)
    (h : dealHand deck n = some (cards, deck2)) :
    cards.length = n ∧ deck2.length = deck.length - n := by
  induction n generalizing deck cards with
  | zero =>
    unfold dealHand at h
    cases h
    exact ⟨rfl, rfl⟩
  | succ m ih =>
    unfold dealHand at h
    cases hpop : popCard deck with
    | none => rw [hpop] at h; cases h
    | some pr =>
      obtain ⟨c, deck1⟩ := pr
      rw [hpop] at h
      dsimp only [] at h
      cases hdeal : dealHand deck1 m with
      | none => rw [hdeal] at h; cases h
      | some pr2 =>
        obtain ⟨cards1, deck3⟩ := pr2
        rw [hdeal] at h
        cases h
        have hd := popCard_length deck c deck1 hpop
        obtain ⟨hc1, hd1⟩ := ih deck1 cards1 hdeal
        constructor
        · simp [hc1]
        · omega

theorem dealPlayers_spec (deck : List LootCard) (ids : List String)
    (ps : List (String × Player)) (deck2 : List LootCard)
    (h : dealPlayers deck ids = some (ps, deck2)) :
    deck2.length = deck.length - 3 * ids.length
    ∧ ∀ e ∈ ps, e.2.hand.length = 3 := by
  induction ids generalizing deck ps with
  | nil =>
    unfold dealPlayers at h
    cases h
    simp
  | cons pid rest ih =>
    unfold dealPlayers at h
    cases hdeal : dealHand deck 3 with
    | none => rw [hdeal] at h; cases h
    | some pr =>
      obtain ⟨cards, deck1⟩ := pr
      rw [hdeal] at h
      dsimp only [] at h
      cases hrest : dealPlayers deck1 rest with
      | none => rw [hrest] at h; cases h
      | some pr2 =>
        obtain ⟨ps1, deck3⟩ := pr2
        rw [hrest] at h
        cases h
        obtain ⟨hcards, hdeck1⟩ := dealHand_spec deck 3 cards deck1 hdeal
        obtain ⟨hdeck3, hps1⟩ := ih deck1 ps1 hrest
        constructor
        · rw [hdeck3, hdeck1]
          simp [List.length_cons]
          omega
        · intro e he
          cases he with
          | head => exact hcards
          | tail _ hmem => exact hps1 e hmem

theorem with_phase_transition_other (shuffle : List LootCard → List LootCard)
    (s : GameState) (ph : TurnPhases) (h : ph ≠ TurnPhases.TurnEnd) :
    s.with_phase_transition shuffle ph = { s with
      current_phase := ph
      waiting_for_priority := true
      players_passed_priority := ∅
      current_priority_player := s.turn_order.active_player_id } := by
  unfold GameState.with_phase_transition
  rw [if_neg h]

/-- The two-player mapping and turn order used for the initialisation
examples. -/
def mappingTwo : List (String × String) := [("p1", "c1"), ("p2", "c2")]

def turnOrderTwo : TurnOrder := ⟨["p1", "p2"], "p1", 0⟩

/-- A one-template catalogue with seven copies. -/
def catalogueA7 : List CardTemplate := [⟨"a", "A", "loot", "", "", 7⟩]

/-- C5. The claim asserts that `initialize_game` draws one loot card
beyond the initial deal for the active player (active hand 4, deck size
`|catalogue| - 3*n - 1`). The fresh game starts in `UntapStartStep`,
and `transition_to_phase` draws only when the phase lands in
`LootStep`, so no card is drawn: on a 7-card catalogue with 2 players
the active player's hand holds 3 cards (not 4) and the deck holds 1
card (not `7 - 3*2 - 1 = 0`). -/
theorem init_game_auto_draw_cex :
    ((GameCoordinator.new id catalogueA7 mappingTwo turnOrderTwo).map fun c0 =>
      (((c0.init_game id).1.game_state.board.getPlayer "p1").map
          fun pl => pl.hand.length,
        (c0.init_game id).1.game_state.board.loot_deck.length))
      = some (some 3, 1)
    ∧ (create_loot_deck catalogueA7).length - 3 * 2 - 1 = 0
    ∧ ¬ (((GameCoordinator.new id catalogueA7 mappingTwo turnOrderTwo).map fun c0 =>
      (((c0.init_game id).1.game_state.board.getPlayer "p1").map
          fun pl => pl.hand.length,
        (c0.init_game id).1.game_state.board.loot_deck.length))
      = some (some 4, 0)) := by
  decide

/-- C5 (amended). `initialize_game` on a fresh game draws no card
beyond the initial deal: the board is exactly the freshly dealt board,
the loot deck holds `|catalogue| - 3*n` cards (`n` players), and every
player's hand (the active player's included) holds 3 cards. -/
theorem init_game_deal_only (shuffle : List LootCard → List LootCard)
    (cat : List CardTemplate) (mapping : List (String × String))
    (t : TurnOrder) (c0 : GameCoordinator)
    (h : GameCoordinator.new shuffle cat mapping t = some c0)
    (hlen : (shuffle (create_loot_deck cat)).length
      = (create_loot_deck cat).length) :
    (c0.init_game shuffle).1.game_state.board = c0.game_state.board
    ∧ (c0.init_game shuffle).1.game_state.board.loot_deck.length
        = (create_loot_deck cat).length - 3 * mapping.length
    ∧ ∀ e ∈ (c0.init_game shuffle).1.game_state.board.players,
        e.2.hand.length = 3 := by
  unfold GameCoordinator.new at h
  cases hgs : GameState.new shuffle cat (mapping.map (·.1)) t with
  | none => rw [hgs] at h; cases h
  | some gs =>
    rw [hgs] at h
    cases h
    unfold GameState.new at hgs
    cases hb : Board.new shuffle cat (mapping.map (·.1)) with
    | none => rw [hb] at hgs; cases hgs
    | some board =>
      rw [hb] at hgs
      cases hgs
      unfold Board.new at hb
      cases hdp : dealPlayers (shuffle (create_loot_deck cat))
          (mapping.map (·.1)) with
      | none => rw [hdp] at hb; cases hb
      | some pr =>
        obtain ⟨players, deck⟩ := pr
        rw [hdp] at hb
        cases hb
        obtain ⟨hdeck, hhands⟩ := dealPlayers_spec _ _ _ _ hdp
        have hboard : ((GameCoordinator.mk
              { current_priority_player := t.active_player_id
                current_phase := TurnPhases.UntapStartStep
                turn_order := t
                board := ⟨deck, [], players⟩
                players_passed_priority := ∅
                game_running := true
                waiting_for_priority := false }
              (StateBroadcaster.new mapping)
              (mapping.map (·.2))).init_game shuffle).1.game_state.board
            = (⟨deck, [], players⟩ : Board) := by
          unfold GameCoordinator.init_game GameCoordinator.transition_to_phase
          dsimp only []
          rw [with_phase_transition_other shuffle _ TurnPhases.UntapStartStep
            (by simp)]
          dsimp only []
          simp
        refine ⟨hboard, ?_, ?_⟩
        · rw [hboard]
          show deck.length = _
          rw [hdeck, hlen]
          simp
        · rw [hboard]
          exact hhands

/-- The coordinator produced by `GameCoordinator.new` on the 7-card
catalogue. -/
def coordSeven : GameCoordinator :=
  match GameCoordinator.new id catalogueA7 mappingTwo turnOrderTwo with
  | some c0 => c0
  | none => coordTwoPlayers

/-- Witness for `init_game_deal_only` at the concrete 7-card, 2-player
game. -/
theorem init_game_deal_only_witness :
    (coordSeven.init_game id).1.game_state.board = coordSeven.game_state.board
    ∧ (coordSeven.init_game id).1.game_state.board.loot_deck.length
        = (create_loot_deck catalogueA7).length - 3 * mappingTwo.length
    ∧ ∀ e ∈ (coordSeven.init_game id).1.game_state.board.players,
        e.2.hand.length = 3 :=
  init_game_deal_only id catalogueA7 mappingTwo turnOrderTwo coordSeven
    (by rfl) (by rfl)

theorem findSome?_guard_eq_find? (l : List Nat) (f : Nat → String)
    (passed : Finset String) :
    (l.findSome? fun i => if f i ∈ passed then none else some (f i))
      = (l.map f).find? (fun x => !(decide (x ∈ passed))) := by
  induction l with
  | nil => rfl
  | cons a t ih =>
    rw [List.findSome?_cons, List.map_cons, List.find?_cons]
    by_cases h : f a ∈ passed
    · simp [h, ih]
    · simp [h]

theorem range1_map_mod_eq_rotation (l : List String) (idx : Nat) (d : String)
    (h : idx < l.length) :
    (List.range' 1 l.length).map (fun i => l.getD ((idx + i) % l.length) d)
      = l.drop (idx + 1) ++ l.take (idx + 1) := by
  have hlen : ((List.range' 1 l.length).map
      (fun i => l.getD ((idx + i) % l.length) d)).length = l.length := by
    simp
  have hlen2 : (l.drop (idx + 1) ++ l.take (idx + 1)).length = l.length := by
    simp
    omega
  apply List.ext_getElem (by rw [hlen, hlen2])
  intro n h1 h2
  have hn : n < l.length := by rw [hlen] at h1; exact h1
  rw [List.getElem_map, List.getElem_range', one_mul]
  have hdroplen : (l.drop (idx + 1)).length = l.length - (idx + 1) := by simp
  by_cases hcase : idx + 1 + n < l.length
  · have hmod : (idx + (1 + n)) % l.length = idx + 1 + n := by
      rw [Nat.mod_eq_of_lt (by omega)]
      omega
    rw [hmod, List.getD_eq_getElem l d (by omega)]
    have hleft : n < (l.drop (idx + 1)).length := by omega
    rw [List.getElem_append_left hleft, List.getElem_drop]
  · have hlt2 : idx + 1 + n < 2 * l.length := by omega
    have hge : l.length ≤ idx + (1 + n) := by omega
    have hmod : (idx + (1 + n)) % l.length = idx + 1 + n - l.length := by
      rw [Nat.mod_eq_sub_mod hge, Nat.mod_eq_of_lt (by omega)]
      omega
    rw [hmod, List.getD_eq_getElem l d (by omega)]
    have hright : (l.drop (idx + 1)).length ≤ n := by omega
    rw [List.getElem_append_right hright]
    rw [List.getElem_take]
    congr 1
    omega

theorem exists_mem_not_passed (order : List String) (passed : Finset String)
    (hnodup : order.Nodup) (hcard : passed.card < order.length) :
    ∃ x ∈ order, x ∉ passed := by
  by_contra hall
  push_neg at hall
  have hsubf : order.toFinset ⊆ passed := by
    intro q hq
    exact hall q (List.mem_toFinset.mp hq)
  have hle : order.length ≤ passed.card := by
    rw [← List.toFinset_card_of_nodup hnodup]
    exact Finset.card_le_card hsubf
  omega

theorem priorityPassBody_is_ok (shuffle : List LootCard → List LootCard)
    (s1 : GameState) : ∃ s2, priorityPassBody shuffle s1 = .ok s2 := by
  unfold priorityPassBody
  split
  · exact ⟨_, rfl⟩
  · split
    · exact ⟨_, rfl⟩
    · exact ⟨_, rfl⟩

/-- C1. `with_priority_pass(p)` fails with `InvalidPriorityPass` exactly
when the state is not waiting for priority from `p`; on success `p` is
inserted into the pass-set, and then: if the pass-set is still smaller
than the turn order, the new priority player is the first player after
`p` in the wrap-around turn-order rotation that has not passed, while if
the pass-set covers the whole turn order, the result is
`with_phase_transition(get_next_phase())` on the state with `p`
inserted. (Stated under the spec's well-formedness invariants: the
order list is duplicate-free, the pass-set is drawn from it, and the
priority holder occurs in it while waiting.) -/
theorem with_priority_pass_correct (shuffle : List LootCard → List LootCard)
    (s : GameState) (p : String)
    (hnodup : s.turn_order.order.Nodup)
    (hcur : s.waiting_for_priority = true →
      s.current_priority_player ∈ s.turn_order.order) :
    ((s.with_priority_pass shuffle p = .error .InvalidPriorityPass) ↔
      ¬ (s.waiting_for_priority = true ∧ s.current_priority_player = p))
    ∧ (s.waiting_for_priority = true → s.current_priority_player = p →
        (((insert p s.players_passed_priority).card < s.turn_order.order.length →
          ∃ next,
            (s.turn_order.order.drop (s.turn_order.order.indexOf p + 1)
              ++ s.turn_order.order.take (s.turn_order.order.indexOf p + 1)).find?
                (fun q => !(decide (q ∈ insert p s.players_passed_priority)))
              = some next
            ∧ s.with_priority_pass shuffle p = .ok { s with
                players_passed_priority := insert p s.players_passed_priority
                current_priority_player := next })
        ∧ (insert p s.players_passed_priority = s.turn_order.order.toFinset →
            s.with_priority_pass shuffle p = .ok
              (GameState.with_phase_transition shuffle
                { s with players_passed_priority :=
                    insert p s.players_passed_priority }
                (GameState.get_next_phase
                  { s with players_passed_priority :=
                      insert p s.players_passed_priority }))))) := by
  constructor
  · by_cases hcan : s.can_player_pass_priority p = true
    · have hcan2 : s.waiting_for_priority = true ∧ s.current_priority_player = p := by
        simpa [GameState.can_player_pass_priority] using hcan
      obtain ⟨s2, hs2⟩ := priorityPassBody_is_ok shuffle
        { s with players_passed_priority := insert p s.players_passed_priority }
      have heq : s.with_priority_pass shuffle p = .ok s2 := by
        unfold GameState.with_priority_pass
        simp only [hcan, not_true_eq_false, if_false]
        exact hs2
      constructor
      · intro herr
        rw [heq] at herr
        cases herr
      · intro hne
        exact absurd hcan2 hne
    · have hne : ¬ (s.waiting_for_priority = true ∧ s.current_priority_player = p) := by
        intro hand
        exact hcan (by simp [GameState.can_player_pass_priority, hand.1, hand.2])
      have herr : s.with_priority_pass shuffle p = .error .InvalidPriorityPass := by
        unfold GameState.with_priority_pass
        rw [if_pos hcan]
      exact ⟨fun _ => hne, fun _ => herr⟩
  · intro hw hp
    have hcan : s.can_player_pass_priority p = true := by
      simp [GameState.can_player_pass_priority, hw, hp]
    have hpmem : p ∈ s.turn_order.order := hp ▸ hcur hw
    have hbody : s.with_priority_pass shuffle p = priorityPassBody shuffle
        { s with players_passed_priority := insert p s.players_passed_priority } := by
      unfold GameState.with_priority_pass
      simp only [hcan, not_true_eq_false, if_false]
    constructor
    · intro hlt
      have hall : GameState.all_players_passed_priority
          { s with players_passed_priority := insert p s.players_passed_priority }
          = false := by
        simp [GameState.all_players_passed_priority]
        omega
      have hidxlt : s.turn_order.order.indexOf p < s.turn_order.order.length :=
        indexOf_lt_length_of_mem s.turn_order.order p hpmem
      have hgnp : GameState.get_next_priority_player
          { s with players_passed_priority := insert p s.players_passed_priority }
          = (s.turn_order.order.drop (s.turn_order.order.indexOf p + 1)
              ++ s.turn_order.order.take (s.turn_order.order.indexOf p + 1)).find?
              (fun q => !(decide (q ∈ insert p s.players_passed_priority))) := by
        unfold GameState.get_next_priority_player
        dsimp only []
        rw [hp]
        rw [findIdxQ_beq_eq_indexOf s.turn_order.order p hpmem]
        dsimp only []
        rw [findSome?_guard_eq_find? (List.range' 1 s.turn_order.order.length)
          (fun i => s.turn_order.order.getD
            ((s.turn_order.order.indexOf p + i) % s.turn_order.order.length) "")
          (insert p s.players_passed_priority)]
        rw [range1_map_mod_eq_rotation s.turn_order.order
          (s.turn_order.order.indexOf p) "" hidxlt]
      obtain ⟨x, hxmem, hxnp⟩ := exists_mem_not_passed s.turn_order.order
        (insert p s.players_passed_priority) hnodup hlt
      have hxrot : x ∈ s.turn_order.order.drop (s.turn_order.order.indexOf p + 1)
          ++ s.turn_order.order.take (s.turn_order.order.indexOf p + 1) := by
        rw [List.mem_append]
        rw [← List.take_append_drop (s.turn_order.order.indexOf p + 1)
          s.turn_order.order, List.mem_append] at hxmem
        exact hxmem.symm
      have hsome : ((s.turn_order.order.drop (s.turn_order.order.indexOf p + 1)
          ++ s.turn_order.order.take (s.turn_order.order.indexOf p + 1)).find?
          (fun q => !(decide (q ∈ insert p s.players_passed_priority)))).isSome := by
        rw [List.find?_isSome]
        exact ⟨x, hxrot, by simp [hxnp]⟩
      obtain ⟨next, hnext⟩ := Option.isSome_iff_exists.mp hsome
      refine ⟨next, hnext, ?_⟩
      rw [hbody]
      unfold priorityPassBody
      rw [if_neg (by simp [hall])]
      rw [hgnp, hnext]
    · intro hfull
      have hcard : (insert p s.players_passed_priority).card
          = s.turn_order.order.length := by
        rw [hfull, List.toFinset_card_of_nodup hnodup]
      have hall : GameState.all_players_passed_priority
          { s with players_passed_priority := insert p s.players_passed_priority }
          = true := by
        simp [GameState.all_players_passed_priority, hcard]
      rw [hbody]
      unfold priorityPassBody
      rw [if_pos hall]

/-- Witness for `with_priority_pass_correct`: `p1` passes priority in
the concrete two-player state; the pass-set is then still smaller than
the order, so priority moves to the first not-passed player of the
rotation after `p1`. -/
theorem with_priority_pass_correct_witness :
    ∃ next,
      (stateEmptyDeck.turn_order.order.drop
          (stateEmptyDeck.turn_order.order.indexOf "p1" + 1)
        ++ stateEmptyDeck.turn_order.order.take
          (stateEmptyDeck.turn_order.order.indexOf "p1" + 1)).find?
          (fun q => !(decide (q ∈ insert "p1" stateEmptyDeck.players_passed_priority)))
        = some next
      ∧ stateEmptyDeck.with_priority_pass id "p1" = .ok { stateEmptyDeck with
          players_passed_priority := insert "p1" stateEmptyDeck.players_passed_priority
          current_priority_player := next } :=
  ((with_priority_pass_correct id stateEmptyDeck "p1" (by decide) (by decide)).2
    (by decide) (by decide)).1 (by decide)

/-- Whether the `CommandLoop` delivers a command to connection `c`:
`SendToPlayer` reaches its one recipient, `SendToPlayers` every listed
connection. -/
def ConnectionCommand.addressedTo (cmd : ConnectionCommand) (c : String) : Bool :=
  match cmd with
  | .SendToPlayer cid _ => cid == c
  | .SendToPlayers cids _ => cids.contains c

/-- Two player-map entries that agree on everything except possibly the
hand contents of player `q` (hand sizes always agree). -/
def entryAgreeExceptHand (q : String) (e₁ e₂ : String × Player) : Prop :=
  e₁.1 = e₂.1
  ∧ e₁.2.hand.length = e₂.2.hand.length
  ∧ e₁.2.max_health = e₂.2.max_health
  ∧ e₁.2.current_health = e₂.2.current_health
  ∧ e₁.2.loot_play_turn = e₂.2.loot_play_turn
  ∧ e₁.2.loot_play_char = e₂.2.loot_play_char
  ∧ (e₁.1 ≠ q → e₁.2.hand = e₂.2.hand)

instance (q : String) (e₁ e₂ : String × Player) :
    Decidable (entryAgreeExceptHand q e₁ e₂) := by
  unfold entryAgreeExceptHand
  infer_instance

/-- Pointwise `entryAgreeExceptHand` over the player maps. -/
def playersAgreeExceptHand (q : String) :
    List (String × Player) → List (String × Player) → Prop
  | [], [] => True
  | e₁ :: t₁, e₂ :: t₂ =>
    entryAgreeExceptHand q e₁ e₂ ∧ playersAgreeExceptHand q t₁ t₂
  | _, _ => False

instance playersAgreeExceptHand.instDec (q : String) :
    (l₁ l₂ : List (String × Player)) → Decidable (playersAgreeExceptHand q l₁ l₂)
  | [], [] => .isTrue trivial
  | [], _ :: _ => .isFalse fun h => h
  | _ :: _, [] => .isFalse fun h => h
  | e₁ :: t₁, e₂ :: t₂ =>
    haveI : Decidable (playersAgreeExceptHand q t₁ t₂) :=
      playersAgreeExceptHand.instDec q t₁ t₂
    decidable_of_iff
      (entryAgreeExceptHand q e₁ e₂ ∧ playersAgreeExceptHand q t₁ t₂) Iff.rfl

/-- Two game states identical except possibly for the contents of
player `q`'s hand (whose size still agrees). -/
def GameState.agreeExceptHand (q : String) (s₁ s₂ : GameState) : Prop :=
  s₁.turn_order = s₂.turn_order
  ∧ s₁.current_phase = s₂.current_phase
  ∧ s₁.current_priority_player = s₂.current_priority_player
  ∧ s₁.players_passed_priority = s₂.players_passed_priority
  ∧ s₁.game_running = s₂.game_running
  ∧ s₁.waiting_for_priority = s₂.waiting_for_priority
  ∧ s₁.board.loot_deck = s₂.board.loot_deck
  ∧ s₁.board.loot_discard = s₂.board.loot_discard
  ∧ playersAgreeExceptHand q s₁.board.players s₂.board.players

instance (q : String) (s₁ s₂ : GameState) :
    Decidable (s₁.agreeExceptHand q s₂) := by
  unfold GameState.agreeExceptHand
  infer_instance

/-- A mapping in which two distinct players share one connection. -/
def mappingShared : List (String × String) := [("alice", "c1"), ("bob", "c1")]

/-- A state in which alice's hand is empty and bob holds one card. -/
def stateLeak : GameState :=
  { turn_order := ⟨["alice", "bob"], "alice", 0⟩
    current_phase := TurnPhases.UntapStartStep
    current_priority_player := "alice"
    players_passed_priority := ∅
    board := ⟨[], [], [("alice", ⟨[], 2, 2, true, true⟩),
      ("bob", ⟨[cardB0], 2, 2, true, true⟩)]⟩
    game_running := true
    waiting_for_priority := true }

/-- C4. Quantified over EVERY player-to-connection mapping, the claimed
confidentiality conclusion is false: with two distinct players mapped
to the same connection, the broadcast delivers to alice's connection a
`PrivateBoardState` carrying exactly bob's hand (which differs from
alice's own hand). -/
theorem broadcast_confidentiality_cex :
    ("alice", "c1") ∈ mappingShared
    ∧ ("bob", "c1") ∈ mappingShared
    ∧ "alice" ≠ "bob"
    ∧ (stateLeak.board.getPlayer "bob").map Player.hand = some [cardB0]
    ∧ (stateLeak.board.getPlayer "alice").map Player.hand = some []
    ∧ ConnectionCommand.SendToPlayer "c1"
        (ServerResponse.PrivateBoardState [cardB0])
        ∈ (StateBroadcaster.new mappingShared).broadcast_full_state stateLeak
    ∧ (ConnectionCommand.SendToPlayer "c1"
        (ServerResponse.PrivateBoardState [cardB0])).addressedTo "c1" = true := by
  decide

theorem handSizes_agreeExceptHand (q : String)
    (l₁ l₂ : List (String × Player)) (h : playersAgreeExceptHand q l₁ l₂) :
    l₁.map (fun e => (e.1, e.2.hand.length))
      = l₂.map (fun e => (e.1, e.2.hand.length)) := by
  induction l₁ generalizing l₂ with
  | nil =>
    cases l₂ with
    | nil => rfl
    | cons e t => exact h.elim
  | cons e₁ t₁ ih =>
    cases l₂ with
    | nil => exact h.elim
    | cons e₂ t₂ =>
      obtain ⟨hent, hrest⟩ := h
      simp only [List.map_cons]
      rw [ih t₂ hrest, hent.1, hent.2.1]

theorem find?_agreeExceptHand (q pid : String)
    (l₁ l₂ : List (String × Player)) (h : playersAgreeExceptHand q l₁ l₂)
    (hne : pid ≠ q) :
    (l₁.find? (fun e => e.1 == pid)).map (fun e => e.2.hand)
      = (l₂.find? (fun e => e.1 == pid)).map (fun e => e.2.hand) := by
  induction l₁ generalizing l₂ with
  | nil =>
    cases l₂ with
    | nil => rfl
    | cons e t => exact h.elim
  | cons e₁ t₁ ih =>
    cases l₂ with
    | nil => exact h.elim
    | cons e₂ t₂ =>
      obtain ⟨hent, hrest⟩ := h
      rw [List.find?_cons, List.find?_cons]
      have hkey : (e₂.1 == pid) = (e₁.1 == pid) := by rw [hent.1]
      by_cases hk : (e₁.1 == pid) = true
      · rw [hk] at hkey
        rw [hk, hkey]
        have he1 : e₁.1 = pid := by simpa using hk
        have hhand : e₁.2.hand = e₂.2.hand :=
          hent.2.2.2.2.2.2 (by rw [he1]; exact hne)
        simp [hhand]
      · have hk2 : (e₁.1 == pid) = false := by
          cases hb : (e₁.1 == pid)
          · rfl
          · exact absurd hb hk
        rw [hk2] at hkey
        rw [hk2, hkey]
        exact ih t₂ hrest

theorem private_cmd_agree (q pid conn : String) (s₁ s₂ : GameState)
    (hplayers : playersAgreeExceptHand q s₁.board.players s₂.board.players)
    (hne : pid ≠ q) :
    (match s₁.board.getPlayer pid with
     | none => ConnectionCommand.SendToPlayer conn (.ErrorResponse .PlayerNotFound)
     | some player =>
        ConnectionCommand.SendToPlayer conn (.PrivateBoardState player.hand))
    = (match s₂.board.getPlayer pid with
     | none => ConnectionCommand.SendToPlayer conn (.ErrorResponse .PlayerNotFound)
     | some player =>
        ConnectionCommand.SendToPlayer conn (.PrivateBoardState player.hand)) := by
  have h := find?_agreeExceptHand q pid s₁.board.players s₂.board.players
    hplayers hne
  unfold Board.getPlayer
  cases h₁ : s₁.board.players.find? (fun e => e.1 == pid) with
  | none =>
    cases h₂ : s₂.board.players.find? (fun e => e.1 == pid) with
    | none => rfl
    | some e₂ =>
      rw [h₁, h₂] at h
      simp at h
  | some e₁ =>
    cases h₂ : s₂.board.players.find? (fun e => e.1 == pid) with
    | none =>
      rw [h₁, h₂] at h
      simp at h
    | some e₂ =>
      rw [h₁, h₂] at h
      have hhand : e₁.2.hand = e₂.2.hand := by simpa using h
      show ConnectionCommand.SendToPlayer conn (.PrivateBoardState e₁.2.hand)
        = ConnectionCommand.SendToPlayer conn (.PrivateBoardState e₂.2.hand)
      rw [hhand]

theorem filter_privates_agree (q cq c : String) (s₁ s₂ : GameState)
    (hplayers : playersAgreeExceptHand q s₁.board.players s₂.board.players)
    (hc : c ≠ cq) :
    ∀ m : List (String × String), (∀ e ∈ m, e.1 = q → e.2 = cq) →
    (m.map fun e =>
      match s₁.board.getPlayer e.1 with
      | none => ConnectionCommand.SendToPlayer e.2 (.ErrorResponse .PlayerNotFound)
      | some player =>
          ConnectionCommand.SendToPlayer e.2 (.PrivateBoardState player.hand)).filter
      (fun cmd => cmd.addressedTo c)
    = (m.map fun e =>
      match s₂.board.getPlayer e.1 with
      | none => ConnectionCommand.SendToPlayer e.2 (.ErrorResponse .PlayerNotFound)
      | some player =>
          ConnectionCommand.SendToPlayer e.2 (.PrivateBoardState player.hand)).filter
      (fun cmd => cmd.addressedTo c) := by
  intro m hq
  induction m with
  | nil => rfl
  | cons e rest ih =>
    have hqr : ∀ e2 ∈ rest, e2.1 = q → e2.2 = cq := by
      intro e2 he2 hq2
      exact hq e2 (List.mem_cons_of_mem e he2) hq2
    simp only [List.map_cons, List.filter_cons]
    by_cases heq : e.1 = q
    · have hcq : e.2 = cq := hq e (List.mem_cons_self e rest) heq
      have haddr : ∀ msg : ServerResponse,
          (ConnectionCommand.SendToPlayer e.2 msg).addressedTo c = false := by
        intro msg
        simp [ConnectionCommand.addressedTo, hcq]
        exact fun habs => hc habs.symm
      have h₁ : (match s₁.board.getPlayer e.1 with
          | none => ConnectionCommand.SendToPlayer e.2
              (.ErrorResponse .PlayerNotFound)
          | some player => ConnectionCommand.SendToPlayer e.2
              (.PrivateBoardState player.hand)).addressedTo c = false := by
        cases s₁.board.getPlayer e.1 <;> exact haddr _
      have h₂ : (match s₂.board.getPlayer e.1 with
          | none => ConnectionCommand.SendToPlayer e.2
              (.ErrorResponse .PlayerNotFound)
          | some player => ConnectionCommand.SendToPlayer e.2
              (.PrivateBoardState player.hand)).addressedTo c = false := by
        cases s₂.board.getPlayer e.1 <;> exact haddr _
      rw [h₁, h₂]
      simp only [Bool.false_eq_true, if_false]
      exact ih hqr
    · have hcmd := private_cmd_agree q e.1 e.2 s₁ s₂ hplayers heq
      rw [hcmd]
      rw [ih hqr]

/-- C4 (amended). For every state and mapping: (1) every
`PrivateBoardState` command is addressed exactly to the connection
mapped to the player whose hand it carries; (2) every `PublicBoardState`
command carries the per-player hand sizes (and nothing else about
hands); (3) provided distinct players are mapped to distinct
connections — precisely: every connection of `q` is `cq` and `c ≠ cq` —
the stream of commands addressed to connection `c` is unchanged when
`q`'s hand contents change (sizes preserved), so no command delivered
to another player's connection depends on (or contains) `q`'s hand. -/
theorem broadcast_confidentiality (m : List (String × String))
    (s₁ s₂ : GameState) (q cq c : String)
    (hq : ∀ e ∈ m, e.1 = q → e.2 = cq)
    (hc : c ≠ cq)
    (hagree : s₁.agreeExceptHand q s₂) :
    (∀ conn h, ConnectionCommand.SendToPlayer conn (.PrivateBoardState h)
        ∈ (StateBroadcaster.new m).broadcast_full_state s₁ →
      ∃ pid pl, (pid, conn) ∈ m ∧ s₁.board.getPlayer pid = some pl
        ∧ h = pl.hand)
    ∧ (∀ sizes dl disc ph act conns,
        ConnectionCommand.SendToPlayers conns
            (.PublicBoardState sizes dl disc ph act)
          ∈ (StateBroadcaster.new m).broadcast_full_state s₁ →
        sizes = s₁.board.handSizes
        ∧ ∀ pid pl, s₁.board.getPlayer pid = some pl →
            (pid, pl.hand.length) ∈ sizes)
    ∧ ((StateBroadcaster.new m).broadcast_full_state s₁).filter
          (fun cmd => cmd.addressedTo c)
      = ((StateBroadcaster.new m).broadcast_full_state s₂).filter
          (fun cmd => cmd.addressedTo c) := by
  refine ⟨?_, ?_, ?_⟩
  · intro conn h hmem
    rcases List.mem_cons.mp hmem with hhead | htail
    · simp [StateBroadcaster.broadcast_public_state] at hhead
    · have ht2 : ConnectionCommand.SendToPlayer conn (.PrivateBoardState h)
          ∈ m.map (fun e =>
            match s₁.board.getPlayer e.1 with
            | none => ConnectionCommand.SendToPlayer e.2
                (.ErrorResponse .PlayerNotFound)
            | some player => ConnectionCommand.SendToPlayer e.2
                (.PrivateBoardState player.hand)) := htail
      rw [List.mem_map] at ht2
      obtain ⟨e, hem, hfe⟩ := ht2
      cases hg : s₁.board.getPlayer e.1 with
      | none =>
        rw [hg] at hfe
        simp at hfe
      | some pl =>
        rw [hg] at hfe
        obtain ⟨hconn, hhand⟩ : e.2 = conn ∧ pl.hand = h := by
          simpa using hfe
        refine ⟨e.1, pl, ?_, hg, hhand.symm⟩
        rw [← hconn]
        exact hem
  · intro sizes dl disc ph act conns hmem
    rcases List.mem_cons.mp hmem with hhead | htail
    · have hsizes : sizes = s₁.board.handSizes := by
        have := hhead
        simp [StateBroadcaster.broadcast_public_state] at this
        exact this.2.1
      refine ⟨hsizes, ?_⟩
      intro pid pl hget
      rw [hsizes]
      unfold Board.getPlayer at hget
      cases hf : s₁.board.players.find? (fun e => e.1 == pid) with
      | none =>
        rw [hf] at hget
        cases hget
      | some e0 =>
        rw [hf] at hget
        have hpl : e0.2 = pl := by
          simpa using hget
        have he01 : e0.1 = pid := by
          have := List.find?_some hf
          simpa using this
        have hmem0 : e0 ∈ s₁.board.players := List.mem_of_find?_eq_some hf
        unfold Board.handSizes
        rw [List.mem_map]
        exact ⟨e0, hmem0, by rw [he01, hpl]⟩
    · have ht2 : ConnectionCommand.SendToPlayers conns
          (.PublicBoardState sizes dl disc ph act)
          ∈ m.map (fun e =>
            match s₁.board.getPlayer e.1 with
            | none => ConnectionCommand.SendToPlayer e.2
                (.ErrorResponse .PlayerNotFound)
            | some player => ConnectionCommand.SendToPlayer e.2
                (.PrivateBoardState player.hand)) := htail
      rw [List.mem_map] at ht2
      obtain ⟨e, hem, hfe⟩ := ht2
      cases hg : s₁.board.getPlayer e.1 with
      | none => rw [hg] at hfe; simp at hfe
      | some pl => rw [hg] at hfe; simp at hfe
  · obtain ⟨hto, hph, hcp, hpp, hgr, hwf, hdk, hdc, hpl⟩ := hagree
    have hpub : (StateBroadcaster.new m).broadcast_public_state s₁
        = (StateBroadcaster.new m).broadcast_public_state s₂ := by
      unfold StateBroadcaster.broadcast_public_state Board.handSizes
      rw [handSizes_agreeExceptHand q _ _ hpl, hdk, hdc, hph, hto]
    have hpriv : ((StateBroadcaster.new m).broadcast_private_states s₁).filter
          (fun cmd => cmd.addressedTo c)
        = ((StateBroadcaster.new m).broadcast_private_states s₂).filter
          (fun cmd => cmd.addressedTo c) :=
      filter_privates_agree q cq c s₁ s₂ hpl hc m hq
    show ((StateBroadcaster.new m).broadcast_public_state s₁
        :: (StateBroadcaster.new m).broadcast_private_states s₁).filter
          (fun cmd => cmd.addressedTo c)
      = ((StateBroadcaster.new m).broadcast_public_state s₂
        :: (StateBroadcaster.new m).broadcast_private_states s₂).filter
          (fun cmd => cmd.addressedTo c)
    rw [List.filter_cons, List.filter_cons, hpub, hpriv]

/-- An injective mapping: alice on `c1`, bob on `c2`. -/
def mappingInj : List (String × String) := [("alice", "c1"), ("bob", "c2")]

/-- Two states identical except for bob's hand contents. -/
def stateHandB : GameState :=
  { stateLeak with board := ⟨[], [], [("alice", ⟨[], 2, 2, true, true⟩),
      ("bob", ⟨[cardB0], 2, 2, true, true⟩)]⟩ }

def stateHandC : GameState :=
  { stateLeak with board := ⟨[], [], [("alice", ⟨[], 2, 2, true, true⟩),
      ("bob", ⟨[cardC0], 2, 2, true, true⟩)]⟩ }

/-- Witness for `broadcast_confidentiality`: with the injective mapping,
the commands addressed to alice's connection are identical whether bob
holds `cardB0` or `cardC0`. -/
theorem broadcast_confidentiality_witness :
    ((StateBroadcaster.new mappingInj).broadcast_full_state stateHandB).filter
        (fun cmd => cmd.addressedTo "c1")
      = ((StateBroadcaster.new mappingInj).broadcast_full_state stateHandC).filter
        (fun cmd => cmd.addressedTo "c1") :=
  (broadcast_confidentiality mappingInj stateHandB stateHandC "bob" "c2" "c1"
    (by decide) (by decide) (by decide)).2.2
